import Mathlib

/-!
Verification development for the skivori-case repository.

Part 1 embeds the generic structural sanitization/defaulting utility
`sanitizeInput` (src/unnamed/part_005) over a model of JavaScript values.

Part 2 embeds the pagination controller
(src/src/components/Pagination/Pagination.tsx): `isValidPage`,
`handlePageChange`, `renderPaginationButton`, `renderPageNumberButtons`
and `renderPaginationControls`.
-/

namespace Skivori

/-- Model of the JavaScript values `sanitizeInput` can receive: `undefined`,
`null`, booleans, numbers (integral, which is all the repository uses),
strings, arrays, and plain objects.  An object is modelled by its own
enumerable entries in insertion order (as `Object.entries` would list them),
with unique keys. -/
inductive Value where
  | undefined
  | null
  | bool (b : Bool)
  | num (n : Int)
  | str (s : String)
  | arr (elems : List Value)
  | obj (entries : List (String × Value))

/-- JavaScript property read `o[key]` on a plain object with entry list
`entries`: the value at the first matching key, `undefined` if absent. -/
def jsGet (entries : List (String × Value)) (k : String) : Value :=
  match entries.find? (fun kv => kv.1 == k) with
  | some kv => kv.2
  | none => Value.undefined

/-- `Object.entries` on a `Value`.  On `null`/`undefined` it throws a
`TypeError` (modelled as `none`).  On booleans and numbers it yields no
entries; on a string it yields the indexed single-character strings; on an
array the indexed elements; on an object its own entries. -/
def entriesOf : Value → Option (List (String × Value))
  | Value.undefined => none
  | Value.null => none
  | Value.bool _ => some []
  | Value.num _ => some []
  | Value.str s => some (s.data.enum.map (fun ic => (toString ic.1, Value.str (String.singleton ic.2))))
  | Value.arr xs => some (xs.enum.map (fun ix => (toString ix.1, ix.2)))
  | Value.obj l => some l

theorem one_le_sizeOf_entryList (l : List (String × Value)) : 1 ≤ sizeOf l := by
  cases l with
  | nil => simp
  | cons a t => simp; omega

theorem sizeOf_jsGet_lt (entries : List (String × Value)) (k : String) :
    sizeOf (jsGet entries k) < 1 + sizeOf entries := by
  unfold jsGet
  cases hf : entries.find? (fun kv => kv.1 == k) with
  | none =>
    have h := one_le_sizeOf_entryList entries
    simp only [Value.undefined.sizeOf_spec]
    omega
  | some kv =>
    have hmem : kv ∈ entries := List.mem_of_find?_eq_some hf
    have h1 : sizeOf kv < sizeOf entries := List.sizeOf_lt_of_mem hmem
    have h2 : sizeOf kv.2 < sizeOf kv := by
      cases kv with
      | mk a b => simp
    show sizeOf kv.2 < 1 + sizeOf entries
    omega

mutual

/-- Embedding of `sanitizeInput` (src/unnamed/part_005).  The source:

    if (Array.isArray(input)) return input.length ? input : defaults;
    if (typeof input === "object" && input !== null)
      return Object.entries(defaults).reduce((acc, [key, value]) => {
        acc[key] = sanitizeInput(input[key], value); return acc; }, {});
    return input ?? defaults;

The `Option` is the exception monad: `none` is the `TypeError` thrown by
`Object.entries` when `defaults` is `null`/`undefined` and `input` is a
non-null, non-array object.  The reduce over the entry list of `defaults`
(whose keys are unique) is `sanitizeList`. -/
def sanitizeInput (input defaults : Value) : Option Value :=
  match input with
  | Value.arr xs => if xs.isEmpty then some defaults else some (Value.arr xs)
  | Value.obj li =>
    match entriesOf defaults with
    | none => none
    | some es => (sanitizeList li es).map Value.obj
  | Value.undefined => some defaults
  | Value.null => some defaults
  | Value.bool b => some (Value.bool b)
  | Value.num n => some (Value.num n)
  | Value.str s => some (Value.str s)
termination_by (sizeOf input, 1, 0)
decreasing_by
  exact Prod.Lex.right _ (Prod.Lex.left _ _ (by omega))

/-- The reduce inside `sanitizeInput`: builds, for each `(key, value)` of the
defaults entry list `es`, the entry `(key, sanitizeInput input[key] value)`,
keeping order; propagates an exception from any recursive call. -/
def sanitizeList (li : List (String × Value)) (es : List (String × Value)) :
    Option (List (String × Value)) :=
  match es with
  | [] => some []
  | (k, v) :: rest =>
    match sanitizeInput (jsGet li k) v, sanitizeList li rest with
    | some r, some rs => some ((k, r) :: rs)
    | _, _ => none
termination_by (sizeOf (Value.obj li), 0, es.length)
decreasing_by
  · exact Prod.Lex.left _ _ (by
      have h := sizeOf_jsGet_lt li k
      simp only [Value.obj.sizeOf_spec]
      omega)
  · exact Prod.Lex.right _ (Prod.Lex.right _ (by
      simp only [List.length_cons]
      omega))

end

/-! Pagination controller embedding (src/src/components/Pagination/Pagination.tsx). -/

/-- Model of the JavaScript values flowing through the pagination helpers as
untyped arguments: numbers, strings (the direction labels), booleans (the
positional arguments of the numbered-button call site), and the
caller-supplied callback function, kept opaque as the marker `fn`. -/
inductive JsArg where
  | num (n : Int)
  | str (s : String)
  | bool (b : Bool)
  | fn
deriving Repr, DecidableEq

/-- JavaScript `ToNumber` on the argument values that occur in the source:
a number is itself, a boolean coerces to 0 or 1, and the values whose
coercion is NaN are `none` (the only strings ever passed are the non-numeric
direction labels, and functions always coerce to NaN).  Every numeric
comparison against NaN is false, which the callers encode by treating `none`
as a failed comparison. -/
def toNumber : JsArg → Option Int
  | JsArg.num n => some n
  | JsArg.bool b => some (if b then 1 else 0)
  | JsArg.str _ => none
  | JsArg.fn => none

/-- `Math.ceil(t / l)` for integer `t` and positive integer `l` (every
division in the source has the positive `limit` as divisor): ceiling
division expressed through floor division, `-((-t) / l)`, where `/` is the
Euclidean division of `Int`, which rounds toward minus infinity for a
positive divisor. -/
def jsCeilDiv (t l : Int) : Int := -((-t) / l)

/-- `isValidPage` (Pagination.tsx lines 22-28):
`newPage > 0 && newPage <= Math.ceil(total / limit)`.  The `total` parameter
is typed as a number, but the numbered-button call site passes a boolean
through the untyped render callback, so the division applies `ToNumber`; a
NaN total makes the second comparison, hence the conjunction, false. -/
def isValidPage (newPage : Int) (total : JsArg) (limit : Int) : Bool :=
  match toNumber total with
  | some t => decide (0 < newPage) && decide (newPage ≤ jsCeilDiv t limit)
  | none => false

/-- Module-level constant (Pagination.tsx line 11): items per page, fixed
at 10 for now. -/
def limit : Int := 10

/-- `handlePageChange` (lines 68-74), modelled by its observable effect:
the list of callback invocations it performs, each recorded as the pair
(value invoked as the callback, argument passed).  Its guard calls
`isValidPage(newPage, total, limit)` with the module-level `limit`. -/
def handlePageChange (newPage : Int) (total : JsArg) (onPageChange : JsArg) :
    List (JsArg × Int) :=
  if isValidPage newPage total limit then [(onPageChange, newPage)] else []

/-- The record produced by `renderPaginationButton` (lines 86-103): the
list item with its disabled/active flags and the values captured by its
`onClick` closure. -/
structure RenderedButton where
  targetPage : Int
  label : JsArg
  total : JsArg
  onPageChange : JsArg
  isDisabled : Bool
  isActive : Bool
deriving Repr, DecidableEq

/-- `renderPaginationButton` (lines 86-103), with its two defaulted trailing
parameters `isDisabled = false` and `isActive = false`. -/
def renderPaginationButton (targetPage : Int) (label : JsArg) (total : JsArg)
    (onPageChange : JsArg) (isDisabled : Bool := false) (isActive : Bool := false) :
    RenderedButton :=
  ⟨targetPage, label, total, onPageChange, isDisabled, isActive⟩

/-- Clicking a rendered button runs its `onClick` closure,
`() => handlePageChange(targetPage, total, onPageChange)`. -/
def clickButton (b : RenderedButton) : List (JsArg × Int) :=
  handlePageChange b.targetPage b.total b.onPageChange

/-- `renderPageNumberButtons` (lines 39-61): one button per page number in
`1..totalPages` (`Array.from({length: totalPages})`; a non-positive length
yields no elements), each built by the four-positional-argument call
`renderButton(pageNum, pageNum, false, currentPage === pageNum)`. -/
def renderPageNumberButtons (totalPages : Int) (currentPage : Int)
    (renderButton : Int → JsArg → JsArg → JsArg → RenderedButton) :
    List RenderedButton :=
  (List.range totalPages.toNat).map (fun index =>
    renderButton ((index : Int) + 1) (JsArg.num ((index : Int) + 1)) (JsArg.bool false)
      (JsArg.bool (decide (currentPage = (index : Int) + 1))))

namespace Directions

/-- Modelled from the spec: the `Directions` enum is imported from
`../../enums/enums`, which is not among the sources; the spec names the two
direction descriptors `Previous` and `Next`, so their label values are
modelled by those strings. -/
def Previous : JsArg := JsArg.str "Previous"

/-- Modelled from the spec: see `Directions.Previous`. -/
def Next : JsArg := JsArg.str "Next"

end Directions

/-- `renderPaginationControls` (lines 115-153): emits, in order, the
Previous button, the numbered buttons, and the Next button.  Previous and
Next are built with five positional arguments (so `isActive` defaults to
false), while the numbered buttons are built through
`renderPageNumberButtons` with `renderPaginationButton` as the render
callback.  The `limit` parameter shadows the module-level constant inside
this function, exactly as in the source. -/
def renderPaginationControls (page : Int) (total : Int) (limit : Int)
    (onPageChange : JsArg) : List RenderedButton :=
  let totalPages := jsCeilDiv total limit
  renderPaginationButton (page - 1) Directions.Previous (JsArg.num total) onPageChange
      (decide (page = 1))
    :: (renderPageNumberButtons totalPages page
          (fun a b c d => renderPaginationButton a b c d)
        ++ [renderPaginationButton (page + 1) Directions.Next (JsArg.num total) onPageChange
            (decide (page = totalPages))])

/-- The exported `Pagination` component (lines 155-157): forwards its props
to `renderPaginationControls`. -/
def Pagination (currentPage totalItems itemsPerPage : Int) (onPageChange : JsArg) :
    List RenderedButton :=
  renderPaginationControls currentPage totalItems itemsPerPage onPageChange

/-! Default templates, in the sense of the data model section of the spec:
a template is a primitive (boolean, number or string), an ordered sequence
of templates, or a mapping whose values are templates.  The spec reserves
`undefined` (and absence in general) for candidate values, so `null` and
`undefined` are not templates. -/

mutual

def isTemplate : Value → Bool
  | Value.undefined => false
  | Value.null => false
  | Value.bool _ => true
  | Value.num _ => true
  | Value.str _ => true
  | Value.arr xs => isTemplateList xs
  | Value.obj l => isTemplateEntries l

def isTemplateList : List Value → Bool
  | [] => true
  | v :: vs => isTemplate v && isTemplateList vs

def isTemplateEntries : List (String × Value) → Bool
  | [] => true
  | (_, v) :: rest => isTemplate v && isTemplateEntries rest

end

theorem isTemplateList_iff (xs : List Value) :
    isTemplateList xs = true ↔ ∀ x ∈ xs, isTemplate x = true := by
  induction xs with
  | nil => simp [isTemplateList]
  | cons v vs ih => simp [isTemplateList, ih]

theorem isTemplateEntries_iff (l : List (String × Value)) :
    isTemplateEntries l = true ↔ ∀ kv ∈ l, isTemplate kv.2 = true := by
  induction l with
  | nil => simp [isTemplateEntries]
  | cons kv rest ih =>
    cases kv with
    | mk k v => simp [isTemplateEntries, ih]

/-- On a template, `Object.entries` never throws. -/
theorem entriesOf_isSome_of_template (d : Value) (h : isTemplate d = true) :
    ∃ es, entriesOf d = some es := by
  cases d <;> simp_all [entriesOf, isTemplate]

/-- Every value listed by `Object.entries` of a template is a template:
the sub-templates of a mapping or sequence, and the single-character
strings of a string. -/
theorem isTemplate_of_mem_entriesOf (d : Value) (h : isTemplate d = true)
    {es : List (String × Value)} (he : entriesOf d = some es) :
    ∀ kv ∈ es, isTemplate kv.2 = true := by
  intro kv hkv
  cases d with
  | undefined => simp [entriesOf] at he
  | null => simp [entriesOf] at he
  | bool b => simp [entriesOf] at he; subst he; simp at hkv
  | num n => simp [entriesOf] at he; subst he; simp at hkv
  | str s =>
    simp [entriesOf] at he
    subst he
    simp only [List.mem_map] at hkv
    obtain ⟨ic, _, rfl⟩ := hkv
    simp [isTemplate]
  | arr xs =>
    simp [entriesOf] at he
    subst he
    simp only [List.mem_map] at hkv
    obtain ⟨ix, hmem, rfl⟩ := hkv
    have hx : ix.2 ∈ xs := by
      have := List.enum_map_snd xs
      exact this ▸ List.mem_map_of_mem Prod.snd hmem
    simp only [isTemplate] at h
    exact (isTemplateList_iff xs).mp h ix.2 hx
  | obj l =>
    simp [entriesOf] at he
    subst he
    simp only [isTemplate] at h
    exact (isTemplateEntries_iff l).mp h kv hkv

/-- Auxiliary strong induction on the size of the input: on a template,
`sanitizeInput` always succeeds. -/
theorem sanitize_total_aux :
    ∀ n : Nat, ∀ x d : Value, sizeOf x ≤ n → isTemplate d = true →
      (sanitizeInput x d).isSome = true := by
  intro n
  induction n with
  | zero =>
    intro x d hx _
    have h1 : 1 ≤ sizeOf x := by cases x <;> simp
    omega
  | succ n ih =>
    intro x d hx hd
    cases x with
    | arr xs =>
      cases hxe : xs.isEmpty <;> simp [sanitizeInput, hxe]
    | undefined => simp [sanitizeInput]
    | null => simp [sanitizeInput]
    | bool b => simp [sanitizeInput]
    | num m => simp [sanitizeInput]
    | str s => simp [sanitizeInput]
    | obj li =>
      obtain ⟨es, hes⟩ := entriesOf_isSome_of_template d hd
      have htpl := isTemplate_of_mem_entriesOf d hd hes
      have hsz : sizeOf (Value.obj li) ≤ n + 1 := hx
      have hlist : ∀ es2 : List (String × Value),
          (∀ kv ∈ es2, isTemplate kv.2 = true) →
          (sanitizeList li es2).isSome = true := by
        intro es2
        induction es2 with
        | nil => intro _; simp [sanitizeList]
        | cons kv rest ihr =>
          intro hall
          obtain ⟨k, v⟩ := kv
          have hszk : sizeOf (jsGet li k) ≤ n := by
            have h1 := sizeOf_jsGet_lt li k
            have h2 : sizeOf (Value.obj li) = 1 + sizeOf li := by simp
            omega
          have h1 : (sanitizeInput (jsGet li k) v).isSome = true :=
            ih (jsGet li k) v hszk (hall (k, v) (List.mem_cons_self _ _))
          have h2 : (sanitizeList li rest).isSome = true :=
            ihr (fun kv2 hm => hall kv2 (List.mem_cons_of_mem _ hm))
          obtain ⟨r, hr⟩ := Option.isSome_iff_exists.mp h1
          obtain ⟨rs, hrs⟩ := Option.isSome_iff_exists.mp h2
          simp [sanitizeList, hr, hrs]
      have hmain := hlist es htpl
      obtain ⟨rs, hrs⟩ := Option.isSome_iff_exists.mp hmain
      simp [sanitizeInput, hes, hrs]

/-- On a template, `sanitizeInput` always succeeds. -/
theorem sanitize_total (x d : Value) (h : isTemplate d = true) :
    (sanitizeInput x d).isSome = true :=
  sanitize_total_aux (sizeOf x) x d le_rfl h

/-- The reduce over template defaults entries succeeds and produces, in
order, one entry per defaults entry: the same key, paired with the
recursive sanitization of the input value at that key. -/
theorem sanitizeList_spec (li : List (String × Value)) (ds : List (String × Value))
    (h : ∀ kv ∈ ds, isTemplate kv.2 = true) :
    ∃ es, sanitizeList li ds = some es ∧
      List.Forall₂ (fun dkv ekv =>
        ekv.1 = dkv.1 ∧ sanitizeInput (jsGet li dkv.1) dkv.2 = some ekv.2) ds es := by
  induction ds with
  | nil => exact ⟨[], by simp [sanitizeList], List.Forall₂.nil⟩
  | cons kv rest ih =>
    obtain ⟨k, v⟩ := kv
    have h1 : (sanitizeInput (jsGet li k) v).isSome = true :=
      sanitize_total _ _ (h (k, v) (List.mem_cons_self _ _))
    obtain ⟨r, hr⟩ := Option.isSome_iff_exists.mp h1
    obtain ⟨es, hes, hfa⟩ := ih (fun kv2 hm => h kv2 (List.mem_cons_of_mem _ hm))
    refine ⟨(k, r) :: es, by simp [sanitizeList, hr, hes], ?_⟩
    exact List.Forall₂.cons ⟨rfl, hr⟩ hfa

/-- The pointwise relation produced by `sanitizeList_spec` forces the key
lists to agree, in order. -/
theorem forall2_keys {li : List (String × Value)} :
    ∀ {ds es : List (String × Value)},
      List.Forall₂ (fun dkv ekv =>
        ekv.1 = dkv.1 ∧ sanitizeInput (jsGet li dkv.1) dkv.2 = some ekv.2) ds es →
      es.map Prod.fst = ds.map Prod.fst := by
  intro ds es h
  induction h with
  | nil => rfl
  | cons hh _ ih => simp [hh.1, ih]

/-- `jsCeilDiv` agrees with the mathematical ceiling of the rational
quotient whenever the divisor is positive. -/
theorem jsCeilDiv_eq_ceil (t l : Int) (hl : 0 < l) :
    jsCeilDiv t l = ⌈(t : ℚ) / (l : ℚ)⌉ := by
  have hln : ((l.toNat : ℤ)) = l := Int.toNat_of_nonneg hl.le
  have hlq : ((l.toNat : ℕ) : ℚ) = (l : ℚ) := by
    exact_mod_cast congrArg (fun z : ℤ => (z : ℚ)) hln
  have hcast : ((-t : ℤ) : ℚ) / ((l.toNat : ℕ) : ℚ) = -((t : ℚ) / (l : ℚ)) := by
    rw [hlq]; push_cast; ring
  calc jsCeilDiv t l
      = -((-t) / l) := rfl
    _ = -((-t) / (l.toNat : ℤ)) := by rw [hln]
    _ = -⌊((-t : ℤ) : ℚ) / ((l.toNat : ℕ) : ℚ)⌋ := by rw [Rat.floor_intCast_div_natCast]
    _ = -⌊-((t : ℚ) / (l : ℚ))⌋ := by rw [hcast]
    _ = ⌈(t : ℚ) / (l : ℚ)⌉ := by rw [← Int.ceil_neg, neg_neg]

/-- The source bounds check, on numeric totals, decides exactly the spec
condition `1 ≤ page ∧ page ≤ ceil(total / limit)`. -/
theorem isValidPage_iff_ceil (p t l : Int) (hl : 0 < l) :
    isValidPage p (JsArg.num t) l = true ↔ 1 ≤ p ∧ p ≤ ⌈(t : ℚ) / (l : ℚ)⌉ := by
  simp only [isValidPage, toNumber, jsCeilDiv_eq_ceil t l hl, Bool.and_eq_true,
    decide_eq_true_eq]
  constructor
  · rintro ⟨h1, h2⟩
    exact ⟨by omega, h2⟩
  · rintro ⟨h1, h2⟩
    exact ⟨by omega, h2⟩

/-! The claims. -/

/-- Claim C1, counterexample: the claim quantifies over every input missing
a key of the mapping defaults, explicitly including primitive inputs; but
for the primitive input 5 against the mapping defaults with single key a,
`sanitizeInput` returns 5 verbatim, which is not a mapping with key-set of
the defaults. -/
theorem sanitizeInput_mapping_keyset_counterexample :
    ¬ ∃ es, sanitizeInput (Value.num 5) (Value.obj [("a", Value.num 1)]) =
      some (Value.obj es) := by
  rintro ⟨es, h⟩
  simp [sanitizeInput] at h

/-- Claim C1, amended: for a mapping-shaped defaults template, an input
that is itself a mapping is sanitized to a mapping with exactly the keys of
the defaults, in the iteration order of the defaults, each value obtained
by recursively sanitizing the input value at that key; an input that is
undefined, null, or an empty sequence yields the defaults mapping itself.
(A defined non-null primitive or a non-empty sequence input is instead
returned verbatim.) -/
theorem sanitizeInput_mapping_keyset (li ds : List (String × Value))
    (h : isTemplate (Value.obj ds) = true) :
    (∃ es, sanitizeInput (Value.obj li) (Value.obj ds) = some (Value.obj es) ∧
        es.map Prod.fst = ds.map Prod.fst ∧
        List.Forall₂ (fun dkv ekv =>
          ekv.1 = dkv.1 ∧ sanitizeInput (jsGet li dkv.1) dkv.2 = some ekv.2) ds es) ∧
    sanitizeInput Value.undefined (Value.obj ds) = some (Value.obj ds) ∧
    sanitizeInput Value.null (Value.obj ds) = some (Value.obj ds) ∧
    sanitizeInput (Value.arr []) (Value.obj ds) = some (Value.obj ds) := by
  have htpl : ∀ kv ∈ ds, isTemplate kv.2 = true :=
    (isTemplateEntries_iff ds).mp (by simpa [isTemplate] using h)
  obtain ⟨es, hes, hfa⟩ := sanitizeList_spec li ds htpl
  refine ⟨⟨es, ?_, forall2_keys hfa, hfa⟩,
    by simp [sanitizeInput], by simp [sanitizeInput], by simp [sanitizeInput]⟩
  simp [sanitizeInput, entriesOf, hes]

/-- Claim C1, witness at a concrete input. -/
theorem sanitizeInput_mapping_keyset_witness :
    isTemplate (Value.obj [("name", Value.str "Default"), ("age", Value.num 30)]) = true ∧
    ((∃ es, sanitizeInput (Value.obj [("name", Value.str "John")])
          (Value.obj [("name", Value.str "Default"), ("age", Value.num 30)]) =
          some (Value.obj es) ∧
        es.map Prod.fst =
          [("name", Value.str "Default"), ("age", Value.num 30)].map Prod.fst ∧
        List.Forall₂ (fun dkv ekv => ekv.1 = dkv.1 ∧
            sanitizeInput (jsGet [("name", Value.str "John")] dkv.1) dkv.2 = some ekv.2)
          [("name", Value.str "Default"), ("age", Value.num 30)] es) ∧
      sanitizeInput Value.undefined
          (Value.obj [("name", Value.str "Default"), ("age", Value.num 30)]) =
        some (Value.obj [("name", Value.str "Default"), ("age", Value.num 30)]) ∧
      sanitizeInput Value.null
          (Value.obj [("name", Value.str "Default"), ("age", Value.num 30)]) =
        some (Value.obj [("name", Value.str "Default"), ("age", Value.num 30)]) ∧
      sanitizeInput (Value.arr [])
          (Value.obj [("name", Value.str "Default"), ("age", Value.num 30)]) =
        some (Value.obj [("name", Value.str "Default"), ("age", Value.num 30)])) :=
  ⟨by simp [isTemplate, isTemplateEntries],
    sanitizeInput_mapping_keyset _ _ (by simp [isTemplate, isTemplateEntries])⟩

/-- Claim C2: evaluation of the code at the failing input of the claim.
`renderPaginationControls(3, 95, 10, cb)` renders twelve buttons and leaves
the active flag of every one of them false, because the numbered-button
call site passes only four positional arguments, so the
`currentPage === pageNum` flag lands in the `onPageChange` parameter and
`isActive` keeps its default; the claim (and the code comments) say the
numbered descriptor equal to the current page is marked active. -/
theorem renderPaginationControls_no_active_flag :
    (renderPaginationControls 3 95 10 JsArg.fn).map RenderedButton.isActive =
      List.replicate 12 false := by decide

/-- Claim C3: every button produced by `renderPageNumberButtons` with
`renderPaginationButton` as the render callback carries the boolean false
as its total and the active-flag boolean as its onPageChange value, and
clicking it performs no callback invocation at all: the click guard
`isValidPage(pageNum, false, 10)` coerces false to 0, whose page count is
0, so the validity check always fails. -/
theorem renderPageNumberButtons_click_noop (totalPages currentPage : Int)
    (b : RenderedButton)
    (hb : b ∈ renderPageNumberButtons totalPages currentPage
      (fun a l t c => renderPaginationButton a l t c)) :
    clickButton b = [] ∧ b.total = JsArg.bool false ∧
      ∃ ab, b.onPageChange = JsArg.bool ab := by
  simp only [renderPageNumberButtons, List.mem_map] at hb
  obtain ⟨index, _, rfl⟩ := hb
  refine ⟨?_, rfl, ⟨_, rfl⟩⟩
  have hguard : isValidPage ((index : Int) + 1) (JsArg.bool false) limit = false := by
    simp [isValidPage, toNumber, jsCeilDiv, limit]
  simp [clickButton, renderPaginationButton, handlePageChange, hguard]

/-- Claim C3, witness at a concrete numbered button. -/
theorem renderPageNumberButtons_click_noop_witness :
    renderPaginationButton 1 (JsArg.num 1) (JsArg.bool false) (JsArg.bool true) ∈
      renderPageNumberButtons 2 1 (fun a l t c => renderPaginationButton a l t c) ∧
    (clickButton (renderPaginationButton 1 (JsArg.num 1) (JsArg.bool false)
        (JsArg.bool true)) = [] ∧
      (renderPaginationButton 1 (JsArg.num 1) (JsArg.bool false)
          (JsArg.bool true)).total = JsArg.bool false ∧
      ∃ ab, (renderPaginationButton 1 (JsArg.num 1) (JsArg.bool false)
          (JsArg.bool true)).onPageChange = JsArg.bool ab) :=
  ⟨by decide, renderPageNumberButtons_click_noop 2 1 _ (by decide)⟩

/-- Claim C4, counterexample: with caller-supplied itemsPerPage 1, target
page 3 and five total items, the claimed validity check holds, yet the
dispatch performs no callback invocation, because `handlePageChange`
validates against the module-level hardcoded limit 10 instead of the
caller-supplied page size. -/
theorem handlePageChange_caller_limit_counterexample :
    isValidPage 3 (JsArg.num 5) 1 = true ∧
      handlePageChange 3 (JsArg.num 5) JsArg.fn = [] := by decide

/-- Claim C4, amended: for every target page and numeric total, the
dispatch either invokes the callback exactly once with the target page or
is a silent no-op, and it invokes the callback exactly when
`isValidPage(targetPage, totalItems, 10)` holds for the module-level
hardcoded page size 10 (equivalently, `1 ≤ targetPage` and `targetPage ≤
ceil(totalItems / 10)`); it is not parametric over the caller-supplied
itemsPerPage. -/
theorem handlePageChange_hardcoded_limit (p t : Int) :
    (handlePageChange p (JsArg.num t) JsArg.fn = [(JsArg.fn, p)] ∨
      handlePageChange p (JsArg.num t) JsArg.fn = []) ∧
    (handlePageChange p (JsArg.num t) JsArg.fn = [(JsArg.fn, p)] ↔
      1 ≤ p ∧ p ≤ ⌈(t : ℚ) / (10 : ℚ)⌉) := by
  have h10 := isValidPage_iff_ceil p t 10 (by norm_num)
  push_cast at h10
  by_cases hg : isValidPage p (JsArg.num t) 10 = true
  · have hc := h10.mp hg
    constructor
    · left
      simp [handlePageChange, limit, hg]
    · simp [handlePageChange, limit, hg, hc]
  · have hgf : isValidPage p (JsArg.num t) 10 = false := by
      cases hv : isValidPage p (JsArg.num t) 10
      · rfl
      · exact absurd hv hg
    have hc : ¬ (1 ≤ p ∧ p ≤ ⌈(t : ℚ) / (10 : ℚ)⌉) := fun hcc => hg (h10.mpr hcc)
    constructor
    · right
      simp [handlePageChange, limit, hgf]
    · simp [handlePageChange, limit, hgf, hc]

/-- Claim C5, counterexample: at `renderPaginationControls(1, 0, 10, cb)`
the claim says Previous and Next are both disabled; but not every emitted
button is disabled (Next is enabled, since its disabled flag is
`page === totalPages` and 1 differs from 0). -/
theorem renderPaginationControls_zero_total_counterexample :
    ¬ ∀ b ∈ renderPaginationControls 1 0 10 JsArg.fn, b.isDisabled = true := by
  decide

/-- Claim C5, amended: when the total is 0 (so the page count is 0) and the
current page is 1, the descriptor sequence has no numbered descriptors and
consists of exactly the Previous button (targeting 0, disabled, since the
current page is 1) and the Next button (targeting 2, NOT disabled, since
its disabled flag compares the current page 1 with the page count 0). -/
theorem renderPaginationControls_zero_total :
    renderPaginationControls 1 0 10 JsArg.fn =
      [renderPaginationButton 0 Directions.Previous (JsArg.num 0) JsArg.fn true false,
        renderPaginationButton 2 Directions.Next (JsArg.num 0) JsArg.fn false false] := by
  decide

/-- Claim C6: for every integer candidate page, non-negative total and
positive page size, `isValidPage` returns true exactly when the candidate
lies in `[1, ceil(total / itemsPerPage)]`; consequently with total 0 no
page is valid. -/
theorem isValidPage_ceil_bound (p t l : Int) (ht : 0 ≤ t) (hl : 1 ≤ l) :
    (isValidPage p (JsArg.num t) l = true ↔
      1 ≤ p ∧ p ≤ ⌈(t : ℚ) / (l : ℚ)⌉) ∧
    (t = 0 → isValidPage p (JsArg.num t) l = false) := by
  have hbridge := isValidPage_iff_ceil p t l (by omega)
  refine ⟨hbridge, ?_⟩
  intro ht0
  subst ht0
  cases hb : isValidPage p (JsArg.num 0) l with
  | false => rfl
  | true =>
    exfalso
    obtain ⟨h1, h2⟩ := hbridge.mp hb
    rw [show ((0 : ℤ) : ℚ) = 0 by norm_num, zero_div, Int.ceil_zero] at h2
    omega

/-- Claim C6, witness at the concrete inputs listed by the spec. -/
theorem isValidPage_ceil_bound_witness :
    ((0 : ℤ) ≤ 100 ∧ (1 : ℤ) ≤ 10) ∧
    ((isValidPage 10 (JsArg.num 100) 10 = true ↔
        1 ≤ (10 : ℤ) ∧ (10 : ℤ) ≤ ⌈((100 : ℤ) : ℚ) / ((10 : ℤ) : ℚ)⌉) ∧
      ((100 : ℤ) = 0 → isValidPage 10 (JsArg.num 100) 10 = false)) :=
  ⟨⟨by norm_num, by norm_num⟩, isValidPage_ceil_bound 10 100 10 (by norm_num) (by norm_num)⟩

/-- Claim C7: an empty sequence input is treated as missing: for every
defaults template, `sanitizeInput` on the empty array returns the defaults
themselves. -/
theorem sanitizeInput_empty_array_defaults (X : Value) :
    sanitizeInput (Value.arr []) X = some X := by
  simp [sanitizeInput]

/-- A defined, non-null primitive (leaf) input value: a boolean, a number,
or a string. -/
def isDefinedLeaf : Value → Bool
  | Value.bool _ => true
  | Value.num _ => true
  | Value.str _ => true
  | _ => false

/-- Claim C8: falsy-but-defined leaf inputs are preserved: whenever the
input is a defined, non-null primitive — including 0, false and the empty
string — `sanitizeInput` returns the input, regardless of the (primitive)
defaults. -/
theorem sanitizeInput_defined_leaf_preserved (x d : Value)
    (h : isDefinedLeaf x = true) : sanitizeInput x d = some x := by
  cases x <;> simp_all [sanitizeInput, isDefinedLeaf]

/-- Claim C8, witness at the three concrete pairs listed by the spec. -/
theorem sanitizeInput_defined_leaf_preserved_witness :
    (isDefinedLeaf (Value.num 0) = true ∧
      sanitizeInput (Value.num 0) (Value.num 5) = some (Value.num 0)) ∧
    (isDefinedLeaf (Value.bool false) = true ∧
      sanitizeInput (Value.bool false) (Value.bool true) = some (Value.bool false)) ∧
    (isDefinedLeaf (Value.str "") = true ∧
      sanitizeInput (Value.str "") (Value.str "x") = some (Value.str "")) :=
  ⟨⟨rfl, sanitizeInput_defined_leaf_preserved _ _ rfl⟩,
    ⟨rfl, sanitizeInput_defined_leaf_preserved _ _ rfl⟩,
    ⟨rfl, sanitizeInput_defined_leaf_preserved _ _ rfl⟩⟩

/-- Claim C9: on every (finite, acyclic) defaults template — a primitive,
sequence, or mapping in the sense of the data model of the spec — and every
input value, `sanitizeInput` returns a value: it never throws.  Termination
itself is intrinsic to the embedding, which is accepted by well-founded
recursion. -/
theorem sanitizeInput_total_on_templates (x d : Value)
    (h : isTemplate d = true) : (sanitizeInput x d).isSome = true :=
  sanitize_total x d h

/-- Claim C9, witness at a concrete input and template. -/
theorem sanitizeInput_total_on_templates_witness :
    isTemplate (Value.obj [("a", Value.num 2)]) = true ∧
    (sanitizeInput (Value.obj [("a", Value.undefined)])
      (Value.obj [("a", Value.num 2)])).isSome = true :=
  ⟨by simp [isTemplate, isTemplateEntries],
    sanitizeInput_total_on_templates _ _ (by simp [isTemplate, isTemplateEntries])⟩

/-- Claim C10: the embedding is a pure function of immutable values, so
neither argument can change across a call; the statement proved is the
freshness discipline of the source: every successful result is either the
input returned as is, the defaults returned as is, or a mapping assembled
fresh (the reduce accumulator, the only structure the source ever writes
to). -/
theorem sanitizeInput_result_fresh_or_argument (i d r : Value)
    (h : sanitizeInput i d = some r) :
    r = i ∨ r = d ∨ ∃ es, r = Value.obj es := by
  cases i with
  | arr xs =>
    cases hxe : xs.isEmpty <;> simp [sanitizeInput, hxe] at h
    · exact Or.inl h.symm
    · exact Or.inr (Or.inl h.symm)
  | obj li =>
    cases hentries : entriesOf d with
    | none => simp [sanitizeInput, hentries] at h
    | some es =>
      simp [sanitizeInput, hentries] at h
      obtain ⟨rs, _, hr⟩ := h
      exact Or.inr (Or.inr ⟨rs, hr.symm⟩)
  | undefined => simp [sanitizeInput] at h; exact Or.inr (Or.inl h.symm)
  | null => simp [sanitizeInput] at h; exact Or.inr (Or.inl h.symm)
  | bool b => simp [sanitizeInput] at h; exact Or.inl h.symm
  | num n => simp [sanitizeInput] at h; exact Or.inl h.symm
  | str s => simp [sanitizeInput] at h; exact Or.inl h.symm

/-- Claim C10, witness at a concrete call. -/
theorem sanitizeInput_result_fresh_or_argument_witness :
    sanitizeInput (Value.num 0) (Value.num 5) = some (Value.num 0) ∧
    (Value.num 0 = Value.num 0 ∨ Value.num 0 = Value.num 5 ∨
      ∃ es, Value.num 0 = Value.obj es) :=
  ⟨by simp [sanitizeInput],
    sanitizeInput_result_fresh_or_argument _ _ _ (by simp [sanitizeInput])⟩

end Skivori
